import Mathlib

/-!
# PreferencesDialog: settings accessor, default table and form binding

A shallow embedding of `src/PreferencesDialog.cpp`.

* `QString` is `String`.  `QString::left` and `QString::right` count UTF-16 code
  units, the embedding counts characters; every comparison made by the source is
  against an ASCII literal, for which the two agree.
* `QVariant` is restricted to the kinds of value this file produces.
* The static cache `m_hCache` and the `QSettings` store are explicit state; both
  are finite maps, written as functions into `Option`.
* `QDir::homePath()` is a parameter `homePath`.
* The colour picker and the `QColor(QString)` constructor are parameters.
-/

namespace PreferencesDialog

/-! ## Values -/

/-- The dynamically typed setting value (`QVariant`), with the kinds used in this file. -/
inductive QVariant where
  | invalid
  | string (s : String)
  | bool (b : Bool)
  | stringList (l : List String)
  deriving DecidableEq

/-- Models `QVariant::isValid`. -/
def QVariant.isValid : QVariant → Bool
  | .invalid => false
  | _ => true

/-- Models `QVariant::toString`: a string is itself, a boolean is `true`/`false`, a list
of exactly one string is that string, and everything else is the empty string. -/
def QVariant.toString : QVariant → String
  | .invalid => ""
  | .string s => s
  | .bool b => if b then "true" else "false"
  | .stringList [s] => s
  | .stringList _ => ""

/-- Lower-casing of a string, on ASCII letters. -/
def lower (s : String) : String :=
  ⟨s.data.map Char.toLower⟩

/-- Models `QVariant::toBool`: a boolean is itself; a string is false exactly when its
lower-cased form is empty, `0` or `false`; other kinds are false. -/
def QVariant.toBool : QVariant → Bool
  | .invalid => false
  | .string s => !(decide (lower s = "0") || decide (lower s = "false") || decide (s = ""))
  | .bool b => b
  | .stringList _ => false

/-- Models `QString::right(n)`: the `n` rightmost characters, the whole string when `n`
is at least its length. -/
def right (s : String) (n : Nat) : String :=
  ⟨s.data.drop (s.data.length - n)⟩

/-- Models `QString::left(n)`: the `n` leftmost characters, the whole string when `n` is
at least its length. -/
def left (s : String) (n : Nat) : String :=
  ⟨s.data.take n⟩

/-- The predefined colours of `Qt::GlobalColor` that the default table names. -/
inductive GlobalColor where
  | darkBlue
  | darkCyan
  | darkGreen
  | darkMagenta
  | red
  deriving DecidableEq

/-- Models `QColor(c).name()` for a predefined colour: its `#rrggbb` form. -/
def GlobalColor.name : GlobalColor → String
  | .darkBlue => "#000080"
  | .darkCyan => "#008080"
  | .darkGreen => "#008000"
  | .darkMagenta => "#800080"
  | .red => "#ff0000"

/-! ## Default table -/

/-- Models `PreferencesDialog::getSettingsDefaultValue`. -/
def getSettingsDefaultValue (homePath : String) (group name : String) : QVariant :=
  if group = "db" ∧ name = "defaultencoding" then .string "UTF-8"
  else if group = "db" ∧ name = "defaultlocation" then .string homePath
  else if group = "db" ∧ name = "foreignkeys" then .bool true
  else if group = "MainWindow" ∧ name = "geometry" then .string ""
  else if group = "MainWindow" ∧ name = "windowState" then .string ""
  else if group = "SQLLogDock" ∧ name = "Log" then .string "Application"
  else if group = "General" ∧ name = "recentFileList" then .stringList []
  else if group = "syntaxhighlighter" then
    if right name 4 = "bold" then
      .bool (decide (name = "keyword_bold") || decide (name = "table_bold"))
    else if right name 6 = "italic" then .bool false
    else if right name 9 = "underline" then .bool false
    else if right name 6 = "colour" then
      if name = "keyword_colour" then .string GlobalColor.darkBlue.name
      else if name = "table_colour" then .string GlobalColor.darkCyan.name
      else if name = "comment_colour" then .string GlobalColor.darkGreen.name
      else if name = "identifier_colour" then .string GlobalColor.darkMagenta.name
      else if name = "string_colour" then .string GlobalColor.red.name
      else .invalid
    else .invalid
  else .invalid

/-! ## Settings accessor -/

/-- A finite map from strings to values: `none` is "no entry". -/
abbrev ValueMap := String → Option QVariant

/-- Insert or overwrite one entry (`QHash::insert`, `QHash::operator[]` assignment,
and the write of one key of the store). -/
def ValueMap.insert (m : ValueMap) (key : String) (value : QVariant) : ValueMap :=
  fun k => if k = key then some value else m k

/-- The map without entries. -/
def ValueMap.empty : ValueMap := fun _ => none

/-- A `QSettings` object: the entries of the persistent store, addressed by their
full path, and the group path set by `beginGroup`.  Paths are taken as written:
the store's own normalisation of slashes, its treatment of an empty key and the
serialisation of values to the backing file are outside this model. -/
structure QSettings where
  entries : ValueMap
  groupPath : String

/-- Opening the store (`QSettings settings(org, org)`): no group is set. -/
def QSettings.ofStore (entries : ValueMap) : QSettings :=
  { entries := entries, groupPath := "" }

/-- Models `QSettings::beginGroup`: later keys are relative to `group/`. -/
def QSettings.beginGroup (s : QSettings) (group : String) : QSettings :=
  { s with groupPath := s.groupPath ++ group ++ "/" }

/-- Models `QSettings::endGroup` for a group opened from the top level. -/
def QSettings.endGroup (s : QSettings) : QSettings :=
  { s with groupPath := "" }

/-- Models `QSettings::setValue`: write the entry at the current group path plus `key`. -/
def QSettings.setValue (s : QSettings) (key : String) (value : QVariant) : QSettings :=
  { s with entries := s.entries.insert (s.groupPath ++ key) value }

/-- Models `QSettings::value(key, defaultValue)`: the entry at the current group path plus
`key`, or `defaultValue` when there is none. -/
def QSettings.value (s : QSettings) (key : String) (defaultValue : QVariant) : QVariant :=
  match s.entries (s.groupPath ++ key) with
  | some v => v
  | none => defaultValue

/-- The state the accessor works on: the static cache `m_hCache` and the entries
of the persistent store. -/
structure Settings where
  cache : ValueMap
  store : ValueMap

/-- Models `PreferencesDialog::getSettingsValue`: the returned value and the state after
the call. -/
def getSettingsValue (homePath : String) (st : Settings) (group name : String) :
    QVariant × Settings :=
  match st.cache (group ++ name) with
  | some cached => (cached, st)
  | none =>
    let settings := QSettings.ofStore st.store
    let value := settings.value (group ++ "/" ++ name) (getSettingsDefaultValue homePath group name)
    (value, { st with cache := st.cache.insert (group ++ name) value })

/-- Models `PreferencesDialog::setSettingsValue`: the state after the call. -/
def setSettingsValue (st : Settings) (group name : String) (value : QVariant) : Settings :=
  let settings := QSettings.ofStore st.store
  let settings := settings.beginGroup group
  let settings := settings.setValue name value
  let settings := settings.endGroup
  { cache := st.cache.insert (group ++ name) value, store := settings.entries }

/-- One call of the accessor. -/
inductive Call where
  | get (group name : String)
  | set (group name : String) (value : QVariant)

/-- The state after one call. -/
def Call.apply (homePath : String) (st : Settings) : Call → Settings
  | .get group name => (getSettingsValue homePath st group name).2
  | .set group name value => setSettingsValue st group name value

/-- The state after a sequence of calls, made in order. -/
def runCalls (homePath : String) (st : Settings) (calls : List Call) : Settings :=
  calls.foldl (Call.apply homePath) st

/-- The state of a fresh process on a fresh machine: empty cache, empty store. -/
def Settings.initial : Settings :=
  { cache := ValueMap.empty, store := ValueMap.empty }

/-! ## Form widgets -/

/-- The three values of `Qt::CheckState`. -/
inductive CheckState where
  | Unchecked
  | PartiallyChecked
  | Checked
  deriving DecidableEq

/-- A `QTreeWidgetItem`: per column, its text and its check state.  Columns are
the non-negative indices the tree hands to its slots. -/
structure TreeItem where
  text : Nat → String
  checkState : Nat → CheckState

/-- Models `QTreeWidgetItem::setText`. -/
def TreeItem.setText (item : TreeItem) (column : Nat) (s : String) : TreeItem :=
  { item with text := fun c => if c = column then s else item.text c }

/-- Models `QTreeWidgetItem::setCheckState`. -/
def TreeItem.setCheckState (item : TreeItem) (column : Nat) (state : CheckState) : TreeItem :=
  { item with checkState := fun c => if c = column then state else item.checkState c }

/-- The form fields of `Ui::PreferencesDialog` that this file reads and writes:
the entries and current index of `encodingComboBox` (`-1` is "no selection"), the
text of `locationEdit`, the state of `foreignKeysCheckBox` and the top-level items
of `treeSyntaxHighlighting`. -/
structure Form where
  encodingItems : List String
  encodingIndex : Int
  locationText : String
  foreignKeys : Bool
  rows : List TreeItem

/-- Models `QComboBox::findText(text, Qt::MatchFixedString)`: the index of the first entry
equal to `text` ignoring case, `-1` when there is none.  Case is folded on ASCII
letters. -/
def findText (items : List String) (text : String) : Int :=
  match items.findIdx? (fun item => decide (lower item = lower text)) with
  | some i => (i : Int)
  | none => -1

/-- Models `QComboBox::setCurrentIndex`: an index outside the entries clears the selection. -/
def setCurrentIndex (items : List String) (index : Int) : Int :=
  if 0 ≤ index ∧ index < (items.length : Int) then index else -1

/-- Models `QComboBox::currentText`: the text of the current entry, empty without selection. -/
def currentText (items : List String) (index : Int) : String :=
  if 0 ≤ index then items.getD index.toNat "" else ""

/-- The setting name stem of row `i` of the highlighting tree, as both loops
compute it; a row past the fifth keeps the empty `QString`. -/
def rowName (i : Nat) : String :=
  if i = 0 then "keyword"
  else if i = 1 then "table"
  else if i = 2 then "comment"
  else if i = 3 then "identifier"
  else if i = 4 then "string"
  else ""

/-- The check state set from a boolean: `Qt::Checked` for true, `Qt::Unchecked` for false. -/
def checkOf (b : Bool) : CheckState :=
  if b then .Checked else .Unchecked

/-- One iteration of the loop of `loadSettings`, on row `i`. -/
def loadRow (homePath : String) (st : Settings) (i : Nat) (item : TreeItem) :
    Settings × TreeItem :=
  let name := rowName i
  let colour := getSettingsValue homePath st "syntaxhighlighter" (name ++ "_colour")
  let item := item.setText 1 colour.1.toString
  let bold := getSettingsValue homePath colour.2 "syntaxhighlighter" (name ++ "_bold")
  let item := item.setCheckState 2 (checkOf bold.1.toBool)
  let italic := getSettingsValue homePath bold.2 "syntaxhighlighter" (name ++ "_italic")
  let item := item.setCheckState 3 (checkOf italic.1.toBool)
  let underline := getSettingsValue homePath italic.2 "syntaxhighlighter" (name ++ "_underline")
  let item := item.setCheckState 4 (checkOf underline.1.toBool)
  (underline.2, item)

/-- The loop of `loadSettings` from row `i` on, `items` being the rows from `i`. -/
def loadRows (homePath : String) (st : Settings) (i : Nat) :
    List TreeItem → Settings × List TreeItem
  | [] => (st, [])
  | item :: rest =>
    let r := loadRow homePath st i item
    let rs := loadRows homePath r.1 (i + 1) rest
    (rs.1, r.2 :: rs.2)

/-- Models `PreferencesDialog::loadSettings`. -/
def loadSettings (homePath : String) (st : Settings) (form : Form) : Settings × Form :=
  let encoding := getSettingsValue homePath st "db" "defaultencoding"
  let index := setCurrentIndex form.encodingItems (findText form.encodingItems encoding.1.toString)
  let location := getSettingsValue homePath encoding.2 "db" "defaultlocation"
  let foreignKeys := getSettingsValue homePath location.2 "db" "foreignkeys"
  let rows := loadRows homePath foreignKeys.2 0 form.rows
  (rows.1,
   { form with
     encodingIndex := index
     locationText := location.1.toString
     foreignKeys := foreignKeys.1.toBool
     rows := rows.2 })

/-- One iteration of the loop of `saveSettings`, on row `i`. -/
def saveRow (st : Settings) (i : Nat) (item : TreeItem) : Settings :=
  let name := rowName i
  let st := setSettingsValue st "syntaxhighlighter" (name ++ "_colour") (.string (item.text 1))
  let st := setSettingsValue st "syntaxhighlighter" (name ++ "_bold")
    (.bool (decide (item.checkState 2 = .Checked)))
  let st := setSettingsValue st "syntaxhighlighter" (name ++ "_italic")
    (.bool (decide (item.checkState 3 = .Checked)))
  setSettingsValue st "syntaxhighlighter" (name ++ "_underline")
    (.bool (decide (item.checkState 4 = .Checked)))

/-- The loop of `saveSettings` from row `i` on, `items` being the rows from `i`. -/
def saveRows (st : Settings) (i : Nat) : List TreeItem → Settings
  | [] => st
  | item :: rest => saveRows (saveRow st i item) (i + 1) rest

/-- The result code a dialog closes with. -/
inductive DialogCode where
  | Rejected
  | Accepted
  deriving DecidableEq

/-- Models `PreferencesDialog::saveSettings`: the settings state after the writes, and the
code `accept()` closes the dialog with.  The form is read only. -/
def saveSettings (st : Settings) (form : Form) : Settings × DialogCode :=
  let st := setSettingsValue st "db" "defaultencoding"
    (.string (currentText form.encodingItems form.encodingIndex))
  let st := setSettingsValue st "db" "defaultlocation" (.string form.locationText)
  let st := setSettingsValue st "db" "foreignkeys" (.bool form.foreignKeys)
  (saveRows st 0 form.rows, .Accepted)

/-- What `saveSettings` writes for a text field after `loadSettings` showed the
value `v` in it: the string form of `v`. -/
def fieldString (v : QVariant) : QVariant :=
  .string v.toString

/-- What `saveSettings` writes for a check box or check cell after `loadSettings`
set it from the value `v`: the boolean form of `v`. -/
def fieldBool (v : QVariant) : QVariant :=
  .bool v.toBool

/-- What `saveSettings` writes for the encoding selector after `loadSettings`
selected by the value `v`: the text of the entry `findText` finds for the string
form of `v`, the empty string when it finds none. -/
def fieldEncoding (items : List String) (v : QVariant) : QVariant :=
  .string (currentText items (setCurrentIndex items (findText items v.toString)))

/-- A form as the dialog shows it before any setting is loaded: the two encodings,
the first selected, an empty location, and five rows without text or checks. -/
def Form.blank : Form :=
  { encodingItems := ["UTF-8", "UTF-16"]
    encodingIndex := 0
    locationText := ""
    foreignKeys := false
    rows := List.replicate 5 { text := fun _ => "", checkState := fun _ => .Unchecked } }

/-- A form in use: the second encoding selected, a location, foreign keys on, a
colour and a checked bold cell in the first row, an italic second row. -/
def Form.sample : Form :=
  { encodingItems := ["UTF-8", "UTF-16"]
    encodingIndex := 1
    locationText := "/home/user/db"
    foreignKeys := true
    rows :=
      [{ text := fun c => if c = 1 then "#000080" else "",
         checkState := fun c => if c = 2 then .Checked else .Unchecked },
       { text := fun c => if c = 1 then "#008080" else "",
         checkState := fun c => if c = 3 then .Checked else .Unchecked },
       { text := fun _ => "", checkState := fun _ => .Unchecked },
       { text := fun _ => "", checkState := fun _ => .Unchecked },
       { text := fun _ => "", checkState := fun _ => .Unchecked }] }

/-- The value a call of `getSettingsValue` returns. -/
def readValue (homePath : String) (st : Settings) (group name : String) : QVariant :=
  (getSettingsValue homePath st group name).1

/-- Row `i` of the tree as `loadSettings` leaves it when the four settings of the
row read as they would in the state `st`. -/
def loadedRow (homePath : String) (st : Settings) (i : Nat) (item : TreeItem) : TreeItem :=
  (((item.setText 1 (readValue homePath st "syntaxhighlighter" (rowName i ++ "_colour")).toString
    ).setCheckState 2
      (checkOf (readValue homePath st "syntaxhighlighter" (rowName i ++ "_bold")).toBool)
    ).setCheckState 3
      (checkOf (readValue homePath st "syntaxhighlighter" (rowName i ++ "_italic")).toBool)
    ).setCheckState 4
      (checkOf (readValue homePath st "syntaxhighlighter" (rowName i ++ "_underline")).toBool)

/-- Whether a call is `setSettingsValue` with exactly the pair `(group, name)`. -/
def Call.setsPair (group name : String) : Call → Bool
  | .set g n _ => decide (g = group ∧ n = name)
  | .get _ _ => false

/-- Whether a call touches what a later read of `(group, name)` depends on without
being a read of that very pair: a read of another pair with the same cache key
`group + name`, or a write with the same cache key or the same store path
`group/name`. -/
def Call.interferes (group name : String) : Call → Bool
  | .get g n => decide (g ++ n = group ++ name ∧ ¬ (g = group ∧ n = name))
  | .set g n _ => decide (g ++ n = group ++ name ∨ g ++ "/" ++ n = group ++ "/" ++ name)

/-- The enumerated set of known keys, as the specification lists it. -/
def specKnownKeys : List (String × String) :=
  [("db", "defaultencoding"), ("db", "defaultlocation"), ("db", "foreignkeys"),
   ("MainWindow", "geometry"), ("MainWindow", "windowState"),
   ("SQLLogDock", "Log"), ("General", "recentFileList"),
   ("syntaxhighlighter", "keyword_colour"), ("syntaxhighlighter", "keyword_bold"),
   ("syntaxhighlighter", "keyword_italic"), ("syntaxhighlighter", "keyword_underline"),
   ("syntaxhighlighter", "table_colour"), ("syntaxhighlighter", "table_bold"),
   ("syntaxhighlighter", "table_italic"), ("syntaxhighlighter", "table_underline"),
   ("syntaxhighlighter", "comment_colour"), ("syntaxhighlighter", "comment_bold"),
   ("syntaxhighlighter", "comment_italic"), ("syntaxhighlighter", "comment_underline"),
   ("syntaxhighlighter", "identifier_colour"), ("syntaxhighlighter", "identifier_bold"),
   ("syntaxhighlighter", "identifier_italic"), ("syntaxhighlighter", "identifier_underline"),
   ("syntaxhighlighter", "string_colour"), ("syntaxhighlighter", "string_bold"),
   ("syntaxhighlighter", "string_italic"), ("syntaxhighlighter", "string_underline")]

/-- A name of the `syntaxhighlighter` group that the default table answers by its
ending alone: one ending in `bold`, `italic` or `underline`. -/
def styleSuffixed (name : String) : Bool :=
  decide (right name 4 = "bold") || decide (right name 6 = "italic")
    || decide (right name 9 = "underline")

/-- What a later read of `(group, name)` rests on: the cache holds nothing for the
key `group + name`, or holds the default of the pair, and the store holds nothing
at `group/name`. -/
def Undisturbed (homePath : String) (group name : String) (st : Settings) : Prop :=
  (st.cache (group ++ name) = none ∨
    st.cache (group ++ name) = some (getSettingsDefaultValue homePath group name)) ∧
  st.store (group ++ "/" ++ name) = none

/-! ## The accessor: cache and store -/

theorem getSettingsValue_store (homePath : String) (st : Settings) (group name : String) :
    (getSettingsValue homePath st group name).2.store = st.store := by
  unfold getSettingsValue
  split <;> rfl

theorem getSettingsValue_cache_of_ne (homePath : String) (st : Settings) (group name key : String)
    (h : key ≠ group ++ name) :
    (getSettingsValue homePath st group name).2.cache key = st.cache key := by
  unfold getSettingsValue
  split
  · rfl
  · simp [ValueMap.insert, h]

theorem getSettingsValue_cache_self (homePath : String) (st : Settings) (group name : String) :
    (getSettingsValue homePath st group name).2.cache (group ++ name)
      = some (getSettingsValue homePath st group name).1 := by
  unfold getSettingsValue
  split
  · next cached h => simpa using h
  · simp [ValueMap.insert]

theorem setSettingsValue_cache (st : Settings) (group name : String) (value : QVariant) :
    (setSettingsValue st group name value).cache = st.cache.insert (group ++ name) value := rfl

theorem setSettingsValue_store (st : Settings) (group name : String) (value : QVariant) :
    (setSettingsValue st group name value).store
      = st.store.insert (group ++ "/" ++ name) value := by
  simp [setSettingsValue, QSettings.ofStore, QSettings.beginGroup, QSettings.setValue,
    QSettings.endGroup]

theorem getSettingsValue_of_cached (homePath : String) (st : Settings) (group name : String)
    (v : QVariant) (h : st.cache (group ++ name) = some v) :
    getSettingsValue homePath st group name = (v, st) := by
  unfold getSettingsValue
  rw [h]

theorem getSettingsValue_of_not_cached (homePath : String) (st : Settings) (group name : String)
    (h : st.cache (group ++ name) = none) :
    (getSettingsValue homePath st group name).1
      = (st.store (group ++ "/" ++ name)).getD (getSettingsDefaultValue homePath group name) := by
  unfold getSettingsValue
  rw [h]
  simp only [QSettings.value, QSettings.ofStore, String.empty_append]
  cases st.store (group ++ "/" ++ name) <;> rfl

/-- C1: `setSettingsValue(group, name, v)` followed by `getSettingsValue(group, name)`
returns `v` and leaves the state as it is, whatever the store holds at that moment:
the read is answered from the cache. -/
theorem set_then_get_returns_value (homePath : String) (st : Settings) (group name : String)
    (v : QVariant) :
    (getSettingsValue homePath (setSettingsValue st group name v) group name).1 = v ∧
    ∀ other : ValueMap,
      getSettingsValue homePath
          { cache := (setSettingsValue st group name v).cache, store := other } group name
        = (v, { cache := (setSettingsValue st group name v).cache, store := other }) := by
  refine ⟨?_, fun other => ?_⟩
  · rw [getSettingsValue_of_cached homePath _ group name v
      (by simp [setSettingsValue_cache, ValueMap.insert])]
  · exact getSettingsValue_of_cached homePath _ group name v
      (by simp [setSettingsValue_cache, ValueMap.insert])

/-- C3: after `setSettingsValue(group, name, v)` the store entry at `group/name`
and the cache entry of the pair both hold `v`, and `getSettingsValue(group, name)`
returns `v` both with the cache as left by the call and with an emptied cache over
the same store. -/
theorem set_leaves_cache_and_store_consistent (homePath : String) (st : Settings)
    (group name : String) (v : QVariant) :
    (setSettingsValue st group name v).store (group ++ "/" ++ name) = some v ∧
    (setSettingsValue st group name v).cache (group ++ name) = some v ∧
    (getSettingsValue homePath (setSettingsValue st group name v) group name).1 = v ∧
    (getSettingsValue homePath
        { cache := ValueMap.empty, store := (setSettingsValue st group name v).store }
        group name).1 = v := by
  refine ⟨?_, ?_, ?_, ?_⟩
  · simp [setSettingsValue_store, ValueMap.insert]
  · simp [setSettingsValue_cache, ValueMap.insert]
  · rw [getSettingsValue_of_cached homePath _ group name v
      (by simp [setSettingsValue_cache, ValueMap.insert])]
  · rw [getSettingsValue_of_not_cached homePath _ group name rfl]
    simp [setSettingsValue_store, ValueMap.insert]

/-- C10: two pairs with the same concatenation `group + name` collide in the cache:
a write of `v` under the first is what a read of the second returns, whatever the
store holds. -/
theorem cache_keys_collide (homePath : String) (st : Settings) (g1 n1 g2 n2 : String)
    (v : QVariant) (other : ValueMap) (h : g1 ++ n1 = g2 ++ n2) :
    (getSettingsValue homePath (setSettingsValue st g1 n1 v) g2 n2).1 = v ∧
    (getSettingsValue homePath
        { cache := (setSettingsValue st g1 n1 v).cache, store := other } g2 n2).1 = v := by
  constructor
  · rw [getSettingsValue_of_cached homePath _ g2 n2 v
      (by simp [setSettingsValue_cache, ValueMap.insert, h])]
  · rw [getSettingsValue_of_cached homePath _ g2 n2 v
      (by simp [setSettingsValue_cache, ValueMap.insert, h])]

/-- C10, at the pairs the specification names: a write under `("ab", "c")` is read
back under `("a", "bc")`, here over a store that holds another value at `a/bc`. -/
theorem cache_keys_collide_witness :
    "ab" ++ "c" = "a" ++ "bc" ∧
    (getSettingsValue "/home/user"
        (setSettingsValue Settings.initial "ab" "c" (.string "x")) "a" "bc").1 = .string "x" ∧
    (getSettingsValue "/home/user"
        { cache := (setSettingsValue Settings.initial "ab" "c" (.string "x")).cache,
          store := ValueMap.empty.insert "a/bc" (.string "y") } "a" "bc").1 = .string "x" :=
  ⟨by decide,
   cache_keys_collide "/home/user" Settings.initial "ab" "c" "a" "bc" (.string "x")
     (ValueMap.empty.insert "a/bc" (.string "y")) (by decide)⟩

/-! ## Reads of a pair that was never written -/

theorem undisturbed_initial (homePath : String) (group name : String) :
    Undisturbed homePath group name Settings.initial :=
  ⟨Or.inl rfl, rfl⟩

theorem undisturbed_read (homePath : String) (group name : String) (st : Settings)
    (h : Undisturbed homePath group name st) :
    (getSettingsValue homePath st group name).1 = getSettingsDefaultValue homePath group name := by
  obtain ⟨hc, hs⟩ := h
  rcases hc with hc | hc
  · rw [getSettingsValue_of_not_cached homePath st group name hc, hs]
    rfl
  · rw [getSettingsValue_of_cached homePath st group name _ hc]

theorem undisturbed_apply (homePath : String) (group name : String) (st : Settings) (c : Call)
    (hc : c.interferes group name = false) (h : Undisturbed homePath group name st) :
    Undisturbed homePath group name (c.apply homePath st) := by
  cases c with
  | get g n =>
    simp only [Call.interferes, decide_eq_false_iff_not] at hc
    simp only [Call.apply]
    refine ⟨?_, ?_⟩
    · by_cases hk : g ++ n = group ++ name
      · have hpair : g = group ∧ n = name := by
          by_contra hcon
          exact hc ⟨hk, hcon⟩
        obtain ⟨hg, hn⟩ := hpair
        subst hg hn
        rw [getSettingsValue_cache_self, undisturbed_read homePath g n st h]
        exact Or.inr rfl
      · rw [getSettingsValue_cache_of_ne homePath st g n _ (fun e => hk e.symm)]
        exact h.1
    · rw [getSettingsValue_store]
      exact h.2
  | set g n v =>
    simp only [Call.interferes, decide_eq_false_iff_not, not_or] at hc
    obtain ⟨hk, hp⟩ := hc
    simp only [Call.apply]
    refine ⟨?_, ?_⟩
    · rw [setSettingsValue_cache]
      have : ¬ (group ++ name = g ++ n) := fun e => hk e.symm
      simpa [ValueMap.insert, this] using h.1
    · rw [setSettingsValue_store]
      have : ¬ (group ++ "/" ++ name = g ++ "/" ++ n) := fun e => hp e.symm
      simpa [ValueMap.insert, this] using h.2

theorem undisturbed_runCalls (homePath : String) (group name : String) (calls : List Call) :
    ∀ st : Settings, (∀ c ∈ calls, c.interferes group name = false) →
      Undisturbed homePath group name st →
      Undisturbed homePath group name (runCalls homePath st calls) := by
  induction calls with
  | nil => intro st _ h; exact h
  | cons c rest ih =>
    intro st hall h
    have h1 := undisturbed_apply homePath group name st c (hall c (List.mem_cons_self _ _)) h
    exact ih (c.apply homePath st) (fun d hd => hall d (List.mem_cons_of_mem _ hd)) h1

/-- C2, as stated, fails in two ways.  A write under `("a/b", "c")` goes to the
store path `a/b/c`, which is also the path of the never written pair
`("a", "b/c")`, so the read of that pair returns the written value and not its
default.  And a mere read of `("d", "bdefaultencoding")` fills the cache key
`dbdefaultencoding`, so the read of the never written pair
`("db", "defaultencoding")` returns the invalid value and not `UTF-8`. -/
theorem never_set_read_not_default :
    (∀ c ∈ [Call.set "a/b" "c" (.string "x")], c.setsPair "a" "b/c" = false) ∧
    (getSettingsValue "/home/user"
        (runCalls "/home/user" Settings.initial [Call.set "a/b" "c" (.string "x")])
        "a" "b/c").1 = .string "x" ∧
    getSettingsDefaultValue "/home/user" "a" "b/c" = .invalid ∧
    (∀ c ∈ [Call.get "d" "bdefaultencoding"], c.setsPair "db" "defaultencoding" = false) ∧
    (getSettingsValue "/home/user"
        (runCalls "/home/user" Settings.initial [Call.get "d" "bdefaultencoding"])
        "db" "defaultencoding").1 = .invalid ∧
    getSettingsDefaultValue "/home/user" "db" "defaultencoding" = .string "UTF-8" := by
  refine ⟨?_, ?_, ?_, ?_, ?_, ?_⟩
  · decide
  · decide
  · decide
  · decide
  · decide
  · decide

/-- C2, amended: from an empty cache and an empty store, after any sequence of
calls none of which is a write with the same store path `group/name` or the same
cache key `group + name`, or a read of another pair with the same cache key, the
read of `(group, name)` returns the default of the pair. -/
theorem never_touched_read_is_default (homePath : String) (group name : String)
    (calls : List Call) (h : ∀ c ∈ calls, c.interferes group name = false) :
    (getSettingsValue homePath (runCalls homePath Settings.initial calls) group name).1
      = getSettingsDefaultValue homePath group name :=
  undisturbed_read homePath group name _
    (undisturbed_runCalls homePath group name calls Settings.initial h
      (undisturbed_initial homePath group name))

/-- C2, amended, at a concrete sequence: reads and writes of other settings, and
an earlier read of the pair itself, leave the read of `db/defaultencoding` at its
default. -/
theorem never_touched_read_is_default_witness :
    (∀ c ∈ [Call.set "db" "foreignkeys" (.bool false), Call.get "db" "defaultencoding",
              Call.get "syntaxhighlighter" "keyword_bold",
              Call.set "db" "defaultlocation" (.string "/tmp")],
        c.interferes "db" "defaultencoding" = false) ∧
    (getSettingsValue "/home/user"
        (runCalls "/home/user" Settings.initial
          [Call.set "db" "foreignkeys" (.bool false), Call.get "db" "defaultencoding",
           Call.get "syntaxhighlighter" "keyword_bold",
           Call.set "db" "defaultlocation" (.string "/tmp")])
        "db" "defaultencoding").1
      = getSettingsDefaultValue "/home/user" "db" "defaultencoding" :=
  ⟨by decide,
   never_touched_read_is_default "/home/user" "db" "defaultencoding" _ (by decide)⟩

/-! ## Coherence of the cache with the store -/

/-- C8, at the failing input: from an empty cache and an empty store, the single
read `getSettingsValue("d", "bdefaultencoding")` leaves a cache entry under the key
`dbdefaultencoding`, which is the key of the pair `("db", "defaultencoding")`; that
entry holds the invalid value, while the store has nothing at `db/defaultencoding`
and the default of the pair is `UTF-8`. -/
theorem cache_entry_differs_from_store_and_default :
    (runCalls "/home/user" Settings.initial [Call.get "d" "bdefaultencoding"]).cache
        ("db" ++ "defaultencoding") = some .invalid ∧
    (runCalls "/home/user" Settings.initial [Call.get "d" "bdefaultencoding"]).store
        ("db" ++ "/" ++ "defaultencoding") = none ∧
    getSettingsDefaultValue "/home/user" "db" "defaultencoding" = .string "UTF-8" := by
  refine ⟨?_, ?_, ?_⟩
  · decide
  · decide
  · decide

/-! ## The default table -/

theorem default_valid_of_known (homePath : String) :
    ∀ p ∈ specKnownKeys, getSettingsDefaultValue homePath p.1 p.2 ≠ .invalid := by
  intro p hp
  simp only [specKnownKeys, List.mem_cons, List.mem_singleton, List.not_mem_nil, or_false] at hp
  repeat' (rcases hp with rfl | hp)
  all_goals (intro h; exact QVariant.noConfusion h)

theorem default_syntaxhighlighter (homePath : String) (name : String) :
    getSettingsDefaultValue homePath "syntaxhighlighter" name =
      if right name 4 = "bold" then
        .bool (decide (name = "keyword_bold") || decide (name = "table_bold"))
      else if right name 6 = "italic" then .bool false
      else if right name 9 = "underline" then .bool false
      else if right name 6 = "colour" then
        if name = "keyword_colour" then .string GlobalColor.darkBlue.name
        else if name = "table_colour" then .string GlobalColor.darkCyan.name
        else if name = "comment_colour" then .string GlobalColor.darkGreen.name
        else if name = "identifier_colour" then .string GlobalColor.darkMagenta.name
        else if name = "string_colour" then .string GlobalColor.red.name
        else .invalid
      else .invalid := by
  unfold getSettingsDefaultValue
  rw [if_neg (fun h => absurd h.1 (by decide)), if_neg (fun h => absurd h.1 (by decide)),
    if_neg (fun h => absurd h.1 (by decide)), if_neg (fun h => absurd h.1 (by decide)),
    if_neg (fun h => absurd h.1 (by decide)), if_neg (fun h => absurd h.1 (by decide)),
    if_neg (fun h => absurd h.1 (by decide)), if_pos rfl]

theorem default_valid_of_styleSuffixed (homePath : String) (name : String)
    (h : styleSuffixed name = true) :
    getSettingsDefaultValue homePath "syntaxhighlighter" name ≠ .invalid := by
  simp only [styleSuffixed, Bool.or_eq_true, decide_eq_true_eq] at h
  rw [default_syntaxhighlighter]
  by_cases h1 : right name 4 = "bold"
  · rw [if_pos h1]; exact fun hv => QVariant.noConfusion hv
  rw [if_neg h1]
  by_cases h2 : right name 6 = "italic"
  · rw [if_pos h2]; exact fun hv => QVariant.noConfusion hv
  rw [if_neg h2]
  by_cases h3 : right name 9 = "underline"
  · rw [if_pos h3]; exact fun hv => QVariant.noConfusion hv
  rcases h with (h | h) | h
  · exact absurd h h1
  · exact absurd h h2
  · exact absurd h h3

theorem default_invalid_or_known (homePath : String) (group name : String) :
    getSettingsDefaultValue homePath group name = .invalid ∨
    (group, name) ∈ specKnownKeys ∨ (group = "syntaxhighlighter" ∧ styleSuffixed name = true) := by
  by_cases h1 : group = "db" ∧ name = "defaultencoding"
  · obtain ⟨rfl, rfl⟩ := h1; exact Or.inr (Or.inl (by decide))
  by_cases h2 : group = "db" ∧ name = "defaultlocation"
  · obtain ⟨rfl, rfl⟩ := h2; exact Or.inr (Or.inl (by decide))
  by_cases h3 : group = "db" ∧ name = "foreignkeys"
  · obtain ⟨rfl, rfl⟩ := h3; exact Or.inr (Or.inl (by decide))
  by_cases h4 : group = "MainWindow" ∧ name = "geometry"
  · obtain ⟨rfl, rfl⟩ := h4; exact Or.inr (Or.inl (by decide))
  by_cases h5 : group = "MainWindow" ∧ name = "windowState"
  · obtain ⟨rfl, rfl⟩ := h5; exact Or.inr (Or.inl (by decide))
  by_cases h6 : group = "SQLLogDock" ∧ name = "Log"
  · obtain ⟨rfl, rfl⟩ := h6; exact Or.inr (Or.inl (by decide))
  by_cases h7 : group = "General" ∧ name = "recentFileList"
  · obtain ⟨rfl, rfl⟩ := h7; exact Or.inr (Or.inl (by decide))
  by_cases h8 : group = "syntaxhighlighter"
  · subst h8
    by_cases hb : right name 4 = "bold"
    · exact Or.inr (Or.inr ⟨rfl, by simp [styleSuffixed, hb]⟩)
    by_cases hi : right name 6 = "italic"
    · exact Or.inr (Or.inr ⟨rfl, by simp [styleSuffixed, hi]⟩)
    by_cases hu : right name 9 = "underline"
    · exact Or.inr (Or.inr ⟨rfl, by simp [styleSuffixed, hu]⟩)
    by_cases c1 : name = "keyword_colour"
    · subst c1; exact Or.inr (Or.inl (by decide))
    by_cases c2 : name = "table_colour"
    · subst c2; exact Or.inr (Or.inl (by decide))
    by_cases c3 : name = "comment_colour"
    · subst c3; exact Or.inr (Or.inl (by decide))
    by_cases c4 : name = "identifier_colour"
    · subst c4; exact Or.inr (Or.inl (by decide))
    by_cases c5 : name = "string_colour"
    · subst c5; exact Or.inr (Or.inl (by decide))
    left
    rw [default_syntaxhighlighter, if_neg hb, if_neg hi, if_neg hu]
    by_cases hc : right name 6 = "colour"
    · rw [if_pos hc, if_neg c1, if_neg c2, if_neg c3, if_neg c4, if_neg c5]
    · rw [if_neg hc]
  · left
    unfold getSettingsDefaultValue
    rw [if_neg h1, if_neg h2, if_neg h3, if_neg h4, if_neg h5, if_neg h6, if_neg h7, if_neg h8]

/-- C4, as stated, fails: `("syntaxhighlighter", "foo_bold")` is outside the
enumerated set, and its default is the valid boolean `false`, not the invalid
value. -/
theorem default_valid_outside_known_set :
    ("syntaxhighlighter", "foo_bold") ∉ specKnownKeys ∧
    getSettingsDefaultValue "/home/user" "syntaxhighlighter" "foo_bold" = .bool false ∧
    (getSettingsDefaultValue "/home/user" "syntaxhighlighter" "foo_bold").isValid = true := by
  refine ⟨?_, ?_, ?_⟩
  · decide
  · decide
  · decide

/-- C4, amended: the default is the invalid value exactly for the pairs that are
outside the enumerated set and are not a `syntaxhighlighter` name ending in `bold`,
`italic` or `underline`; in particular it is valid for every key of the set. -/
theorem default_invalid_iff (homePath : String) (group name : String) :
    getSettingsDefaultValue homePath group name = .invalid ↔
      ((group, name) ∉ specKnownKeys ∧
        ¬ (group = "syntaxhighlighter" ∧ styleSuffixed name = true)) := by
  constructor
  · intro h
    refine ⟨fun hm => default_valid_of_known homePath (group, name) hm h, ?_⟩
    rintro ⟨rfl, hs⟩
    exact default_valid_of_styleSuffixed homePath name hs h
  · rintro ⟨h1, h2⟩
    rcases default_invalid_or_known homePath group name with h | hm | hs
    · exact h
    · exact absurd hm h1
    · exact absurd hs h2

/-- C5: the tabled defaults of the known keys, each of the kind its form field
takes: `db/defaultencoding` is the string `UTF-8`, `db/defaultlocation` the string
of the home path, `db/foreignkeys` the boolean true; per highlighting row the
colour is a string, bold is a boolean that is true for keyword and table only,
italic and underline are the boolean false. -/
theorem default_table_values (homePath : String) :
    getSettingsDefaultValue homePath "db" "defaultencoding" = .string "UTF-8" ∧
    getSettingsDefaultValue homePath "db" "defaultlocation" = .string homePath ∧
    getSettingsDefaultValue homePath "db" "foreignkeys" = .bool true ∧
    getSettingsDefaultValue homePath "MainWindow" "geometry" = .string "" ∧
    getSettingsDefaultValue homePath "MainWindow" "windowState" = .string "" ∧
    getSettingsDefaultValue homePath "SQLLogDock" "Log" = .string "Application" ∧
    getSettingsDefaultValue homePath "General" "recentFileList" = .stringList [] ∧
    getSettingsDefaultValue homePath "syntaxhighlighter" "keyword_colour" = .string "#000080" ∧
    getSettingsDefaultValue homePath "syntaxhighlighter" "keyword_bold" = .bool true ∧
    getSettingsDefaultValue homePath "syntaxhighlighter" "keyword_italic" = .bool false ∧
    getSettingsDefaultValue homePath "syntaxhighlighter" "keyword_underline" = .bool false ∧
    getSettingsDefaultValue homePath "syntaxhighlighter" "table_colour" = .string "#008080" ∧
    getSettingsDefaultValue homePath "syntaxhighlighter" "table_bold" = .bool true ∧
    getSettingsDefaultValue homePath "syntaxhighlighter" "table_italic" = .bool false ∧
    getSettingsDefaultValue homePath "syntaxhighlighter" "table_underline" = .bool false ∧
    getSettingsDefaultValue homePath "syntaxhighlighter" "comment_colour" = .string "#008000" ∧
    getSettingsDefaultValue homePath "syntaxhighlighter" "comment_bold" = .bool false ∧
    getSettingsDefaultValue homePath "syntaxhighlighter" "comment_italic" = .bool false ∧
    getSettingsDefaultValue homePath "syntaxhighlighter" "comment_underline" = .bool false ∧
    getSettingsDefaultValue homePath "syntaxhighlighter" "identifier_colour" = .string "#800080" ∧
    getSettingsDefaultValue homePath "syntaxhighlighter" "identifier_bold" = .bool false ∧
    getSettingsDefaultValue homePath "syntaxhighlighter" "identifier_italic" = .bool false ∧
    getSettingsDefaultValue homePath "syntaxhighlighter" "identifier_underline" = .bool false ∧
    getSettingsDefaultValue homePath "syntaxhighlighter" "string_colour" = .string "#ff0000" ∧
    getSettingsDefaultValue homePath "syntaxhighlighter" "string_bold" = .bool false ∧
    getSettingsDefaultValue homePath "syntaxhighlighter" "string_italic" = .bool false ∧
    getSettingsDefaultValue homePath "syntaxhighlighter" "string_underline" = .bool false := by
  repeat' apply And.intro
  all_goals rfl

/-! ## The colour cell -/

theorem list_length_five {α : Type} (l : List α) (h : l.length = 5) :
    ∃ a b c d e, l = [a, b, c, d, e] := by
  match l, h with
  | [a, b, c, d, e], _ => exact ⟨a, b, c, d, e, rfl⟩

theorem getSettingsValue_fst (homePath : String) (st : Settings) (group name : String) :
    (getSettingsValue homePath st group name).1 = readValue homePath st group name := rfl

theorem readValue_get_of_ne (homePath : String) (st : Settings) (g n group name : String)
    (h : g ++ n ≠ group ++ name) :
    readValue homePath (getSettingsValue homePath st g n).2 group name
      = readValue homePath st group name := by
  have hc : (getSettingsValue homePath st g n).2.cache (group ++ name) = st.cache (group ++ name) :=
    getSettingsValue_cache_of_ne homePath st g n _ (fun e => h e.symm)
  have hs := getSettingsValue_store homePath st g n
  unfold readValue
  cases hst : st.cache (group ++ name) with
  | some v =>
    rw [getSettingsValue_of_cached homePath st group name v hst,
      getSettingsValue_of_cached homePath _ group name v (hc.trans hst)]
  | none =>
    rw [getSettingsValue_of_not_cached homePath st group name hst,
      getSettingsValue_of_not_cached homePath _ group name (hc.trans hst), hs]

theorem loadSettings_form (homePath : String) (st : Settings) (items : List String) (idx : Int)
    (loc : String) (fk : Bool) (r0 r1 r2 r3 r4 : TreeItem) :
    (loadSettings homePath st ⟨items, idx, loc, fk, [r0, r1, r2, r3, r4]⟩).2 =
      { encodingItems := items
        encodingIndex := setCurrentIndex items
          (findText items (readValue homePath st "db" "defaultencoding").toString)
        locationText := (readValue homePath st "db" "defaultlocation").toString
        foreignKeys := (readValue homePath st "db" "foreignkeys").toBool
        rows := [loadedRow homePath st 0 r0, loadedRow homePath st 1 r1,
          loadedRow homePath st 2 r2, loadedRow homePath st 3 r3, loadedRow homePath st 4 r4] } := by
  unfold loadSettings
  simp (disch := decide) only [loadRows, loadRow, loadedRow, getSettingsValue_fst, readValue_get_of_ne]

theorem loadSettings_store (homePath : String) (st : Settings) (items : List String) (idx : Int)
    (loc : String) (fk : Bool) (r0 r1 r2 r3 r4 : TreeItem) :
    (loadSettings homePath st ⟨items, idx, loc, fk, [r0, r1, r2, r3, r4]⟩).1.store = st.store := by
  simp only [loadSettings, loadRows, loadRow, getSettingsValue_store]

theorem decide_checkOf (b : Bool) : decide (checkOf b = CheckState.Checked) = b := by
  cases b <;> rfl

theorem currentText_setCurrentIndex (items : List String) (index : Int) :
    currentText items (setCurrentIndex items index) = currentText items index := by
  unfold setCurrentIndex
  split
  · rfl
  · next h =>
    unfold currentText
    by_cases h0 : 0 ≤ index
    · have hlen : items.length ≤ index.toNat := by omega
      rw [if_pos h0, if_neg (by decide), List.getD_eq_default _ _ hlen]
    · rw [if_neg h0, if_neg (by decide)]

/-- C6, as stated, fails: with `ISO-8859-1` stored at `db/defaultencoding` and the
choice list `UTF-8`, `UTF-16`, the load reads `ISO-8859-1`, finds no entry for it
and clears the selection, and the save stores the empty string.  Likewise a stored
string `yes` at `db/foreignkeys` is read as that string and saved as the boolean
true. -/
theorem load_then_save_changes_store :
    Form.blank.rows.length = 5 ∧
    readValue "/home/user"
        { cache := ValueMap.empty,
          store := (ValueMap.empty.insert "db/defaultencoding" (.string "ISO-8859-1")).insert
            "db/foreignkeys" (.string "yes") }
        "db" "defaultencoding" = .string "ISO-8859-1" ∧
    (saveSettings
        (loadSettings "/home/user"
          { cache := ValueMap.empty,
            store := (ValueMap.empty.insert "db/defaultencoding" (.string "ISO-8859-1")).insert
              "db/foreignkeys" (.string "yes") } Form.blank).1
        (loadSettings "/home/user"
          { cache := ValueMap.empty,
            store := (ValueMap.empty.insert "db/defaultencoding" (.string "ISO-8859-1")).insert
              "db/foreignkeys" (.string "yes") } Form.blank).2).1.store
        "db/defaultencoding" = some (.string "") ∧
    readValue "/home/user"
        { cache := ValueMap.empty,
          store := (ValueMap.empty.insert "db/defaultencoding" (.string "ISO-8859-1")).insert
            "db/foreignkeys" (.string "yes") }
        "db" "foreignkeys" = .string "yes" ∧
    (saveSettings
        (loadSettings "/home/user"
          { cache := ValueMap.empty,
            store := (ValueMap.empty.insert "db/defaultencoding" (.string "ISO-8859-1")).insert
              "db/foreignkeys" (.string "yes") } Form.blank).1
        (loadSettings "/home/user"
          { cache := ValueMap.empty,
            store := (ValueMap.empty.insert "db/defaultencoding" (.string "ISO-8859-1")).insert
              "db/foreignkeys" (.string "yes") } Form.blank).2).1.store
        "db/foreignkeys" = some (.bool true) := by
  refine ⟨?_, ?_, ?_, ?_, ?_⟩
  · decide
  · decide
  · decide
  · decide
  · decide

/-- C6, amended: for a form with five rows, after `loadSettings` followed by
`saveSettings` the store holds, at each key the dialog handles, the value the load
read for that key brought to the kind of its form field: its string form for the
location and the colours, its boolean form for the flags, and for the encoding the
text of the choice-list entry `findText` finds for its string form, empty when
there is none.  That is the value read itself when it is a string, respectively a
boolean, respectively a string that is the text of the entry found for it.  The
value read for a key is what `getSettingsValue` answers for it in the state the
load starts in: the reads of one load do not disturb one another
(`loadSettings_form`). -/
theorem load_then_save_stores_field_values (homePath : String) (st : Settings) (form : Form)
    (hrows : form.rows.length = 5) :
    (∀ s, fieldString (.string s) = .string s) ∧
    (∀ b, fieldBool (.bool b) = .bool b) ∧
    (∀ s, currentText form.encodingItems (findText form.encodingItems s) = s →
      fieldEncoding form.encodingItems (.string s) = .string s) ∧
    (saveSettings (loadSettings homePath st form).1 (loadSettings homePath st form).2).1.store
        ("db" ++ "/" ++ "defaultencoding")
      = some (fieldEncoding form.encodingItems (readValue homePath st "db" "defaultencoding")) ∧
    (saveSettings (loadSettings homePath st form).1 (loadSettings homePath st form).2).1.store
        ("db" ++ "/" ++ "defaultlocation")
      = some (fieldString (readValue homePath st "db" "defaultlocation")) ∧
    (saveSettings (loadSettings homePath st form).1 (loadSettings homePath st form).2).1.store
        ("db" ++ "/" ++ "foreignkeys")
      = some (fieldBool (readValue homePath st "db" "foreignkeys")) ∧
    ∀ i : Fin 5,
      (saveSettings (loadSettings homePath st form).1 (loadSettings homePath st form).2).1.store
        ("syntaxhighlighter" ++ "/" ++ (rowName i ++ "_colour"))
        = some (fieldString (readValue homePath st "syntaxhighlighter" (rowName i ++ "_colour"))) ∧
      (saveSettings (loadSettings homePath st form).1 (loadSettings homePath st form).2).1.store
        ("syntaxhighlighter" ++ "/" ++ (rowName i ++ "_bold"))
        = some (fieldBool (readValue homePath st "syntaxhighlighter" (rowName i ++ "_bold"))) ∧
      (saveSettings (loadSettings homePath st form).1 (loadSettings homePath st form).2).1.store
        ("syntaxhighlighter" ++ "/" ++ (rowName i ++ "_italic"))
        = some (fieldBool (readValue homePath st "syntaxhighlighter" (rowName i ++ "_italic"))) ∧
      (saveSettings (loadSettings homePath st form).1 (loadSettings homePath st form).2).1.store
          ("syntaxhighlighter" ++ "/" ++ (rowName i ++ "_underline"))
        = some (fieldBool
            (readValue homePath st "syntaxhighlighter" (rowName i ++ "_underline"))) := by
  obtain ⟨items, idx, loc, fk, rows⟩ := form
  obtain ⟨r0, r1, r2, r3, r4, rfl⟩ := list_length_five rows hrows
  rw [loadSettings_form]
  refine ⟨fun _ => rfl, fun _ => rfl, ?_, rfl, rfl, rfl, ?_⟩
  · intro s hs
    simp only at hs
    simp only [fieldEncoding, QVariant.toString, currentText_setCurrentIndex, hs]
  · intro i
    fin_cases i
    all_goals
      refine ⟨rfl, ?_, ?_, ?_⟩
      all_goals
        show some (QVariant.bool (decide (checkOf _ = CheckState.Checked))) = _
        rw [decide_checkOf]
        rfl

/-- C6, amended, at a concrete input: over a store that holds `UTF-16` as the
encoding, the load and save of the sample form store `UTF-16` again, and the
default location read for the absent key `db/defaultlocation`. -/
theorem load_then_save_stores_field_values_witness :
    Form.sample.rows.length = 5 ∧
    (saveSettings
        (loadSettings "/home/user"
          { cache := ValueMap.empty,
            store := ValueMap.empty.insert "db/defaultencoding" (.string "UTF-16") }
          Form.sample).1
        (loadSettings "/home/user"
          { cache := ValueMap.empty,
            store := ValueMap.empty.insert "db/defaultencoding" (.string "UTF-16") }
          Form.sample).2).1.store ("db" ++ "/" ++ "defaultencoding")
      = some (fieldEncoding Form.sample.encodingItems
          (readValue "/home/user"
            { cache := ValueMap.empty,
              store := ValueMap.empty.insert "db/defaultencoding" (.string "UTF-16") }
            "db" "defaultencoding")) ∧
    fieldEncoding Form.sample.encodingItems
        (readValue "/home/user"
          { cache := ValueMap.empty,
            store := ValueMap.empty.insert "db/defaultencoding" (.string "UTF-16") }
          "db" "defaultencoding")
      = .string "UTF-16" :=
  ⟨by decide,
   (load_then_save_stores_field_values "/home/user"
      { cache := ValueMap.empty,
        store := ValueMap.empty.insert "db/defaultencoding" (.string "UTF-16") }
      Form.sample (by decide)).2.2.2.1,
   by decide⟩

end PreferencesDialog
